import Mathlib

/-!
Verification of the block-to-exercise transformation engine of the
health-coach repository (src/coach_mcp/server.py): the Exercise
Normalizer (the function named _transform_block_to_exercises there) and the Plan
Transformer (the function named _transform_block_plan there), embedded shallowly.

Python dictionaries with optional keys are embedded as structures: a key
only ever read through dict.get with a default collapses to a field of the
defaulted type, while a key whose presence the code tests with the
membership operator (the keys named exercises and instructions) becomes an
Option field.  Python decimal rendering of integers (str) is embedded by an
executable fuel-based renderer natRepr below, together with a
well-founded twin natDigitsSpec used for proofs.
-/

namespace HealthCoach

/-- The decimal digit character for a value below ten, as Python renders it. -/
def digitChar (d : Nat) : Char := Char.ofNat (48 + d)

/-- Fuel-based most-significant-first decimal digits accumulator; the fuel
is only a structural-recursion device, any fuel above the number works. -/
def natDigitsCore (fuel : Nat) (n : Nat) (acc : List Char) : List Char :=
  match fuel with
  | 0 => acc
  | fuel + 1 =>
    if n < 10 then digitChar n :: acc
    else natDigitsCore fuel (n / 10) (digitChar (n % 10) :: acc)

/-- Decimal digits of a natural number, most significant first. -/
def natDigits (n : Nat) : List Char := natDigitsCore (n + 1) n []

/-- Well-founded specification twin of natDigits, convenient for induction. -/
def natDigitsSpec (n : Nat) : List Char :=
  if _h : n < 10 then [digitChar n]
  else natDigitsSpec (n / 10) ++ [digitChar (n % 10)]
decreasing_by exact Nat.div_lt_self (by omega) (by omega)

/-- The value read back from a most-significant-first decimal digit list. -/
def digitsVal (l : List Char) : Nat := l.foldl (fun acc c => acc * 10 + (c.toNat - 48)) 0

/-- Embedding of Python str on a natural number: its decimal rendering. -/
def natRepr (n : Nat) : String := ⟨natDigits n⟩

/-- Embedding of Python str on an integer: decimal rendering with sign. -/
def intRepr : Int → String
  | .ofNat n => ⟨natDigits n⟩
  | .negSucc n => ⟨'-' :: natDigits (n + 1)⟩

/-- Does the character list start with the given needle list. -/
def listStartsWith : List Char → List Char → Bool
  | [], _ => true
  | _ :: _, [] => false
  | a :: as, b :: bs => a == b && listStartsWith as bs

/-- Does the haystack character list contain the needle as a contiguous run. -/
def hasSub (needle : List Char) : List Char → Bool
  | [] => needle.isEmpty
  | c :: t => listStartsWith needle (c :: t) || hasSub needle t

/-- Embedding of the Python substring membership test on strings. -/
def strContainsSub (hay needle : String) : Bool := hasSub needle.data hay.data

/-- A JSON scalar that the plan schema allows to be an int or a string
(the duck-typed reps and sets fields). -/
inductive JVal where
  | int (n : Int)
  | str (s : String)
deriving DecidableEq

/-- Python truthiness of such a scalar: zero and the empty string are falsy. -/
def JVal.truthy : JVal → Bool
  | .int n => n != 0
  | .str s => s != ""

/-- Embedding of Python str applied to such a scalar. -/
def JVal.pyStr : JVal → String
  | .int n => intRepr n
  | .str s => s

/-- A Sub-Exercise descriptor nested in a block.  Fields the source reads
through dict.get with a string default collapse to String (absent = empty);
name keeps its presence since the source defaults it to the word Unknown;
sets and reps keep presence and the int-or-string duck typing; equipment is
carried in the schema but never read by the transformation source. -/
structure SubExercise where
  name : Option String := none
  sets : Option JVal := none
  reps : Option JVal := none
  tempo : String := ""
  load_guide : String := ""
  notes : String := ""
  equipment : Option String := none
deriving DecidableEq

/-- One workout block of the input plan.  The keys named exercises and
instructions are Option because the source tests their presence with the
dict membership operator; rounds is carried in the schema but never read by
the transformation source. -/
structure Block where
  block_type : String := ""
  title : String := ""
  rest_guidance : String := ""
  duration_min : Option Int := none
  rounds : Option JVal := none
  exercises : Option (List SubExercise) := none
  instructions : Option (List String) := none
deriving DecidableEq

/-- One canonical output exercise record.  An Option field set to none
embeds the absence of the corresponding key in the output dictionary; the
transformation source never writes the hide_weight and show_time keys. -/
structure Exercise where
  id : String
  name : String
  type : String
  items : Option (List String) := none
  target_sets : Option Int := none
  target_reps : Option String := none
  target_duration_min : Option Int := none
  guidance_note : Option String := none
  hide_weight : Option Bool := none
  show_time : Option Bool := none
deriving DecidableEq

/-- The identifier format of per-item and instruction-based exercises,
embedding the f-string with block type, block index and 1-based item number. -/
def mkId (bt : String) (block_index k : Nat) : String :=
  bt ++ "_" ++ natRepr block_index ++ "_" ++ natRepr k

/-- One checklist item of the aggregated warmup exercise: the name with
reps appended in the x-form for a truthy int and verbatim for a truthy
string, the bare name otherwise. -/
def renderWarmupItem (ex : SubExercise) : String :=
  let name := ex.name.getD "Unknown"
  match ex.reps with
  | some (.int n) => if n ≠ 0 then name ++ " x" ++ intRepr n else name
  | some (.str s) => if s ≠ "" then name ++ " " ++ s else name
  | none => name

/-- The per-item expansion of one Sub-Exercise at 0-based position i inside
a non-warmup block, mirroring the body of the enumerate loop of
_transform_block_to_exercises. -/
def transformSubExercise (block_type rest_guidance : String) (block_index i : Nat)
    (ex : SubExercise) : Exercise :=
  let exercise_id := mkId block_type block_index (i + 1)
  let ex_type :=
    if block_type = "circuit" ∨ block_type = "power" then "circuit"
    else if block_type = "strength" ∨ block_type = "accessory" then "strength"
    else "strength"
  let target_sets : Option Int :=
    match ex.sets with
    | some (.int n) => if n ≠ 0 then some n else none
    | some (.str s) => if s ≠ "" then some 3 else none
    | none => none
  let target_reps : Option String :=
    match ex.reps with
    | some v => if v.truthy then some v.pyStr else none
    | none => none
  let note_parts : List String :=
    (if ex.tempo ≠ "" then ["Tempo " ++ ex.tempo] else []) ++
    (if ex.load_guide ≠ "" then [ex.load_guide] else []) ++
    (if ex.notes ≠ "" then [ex.notes] else []) ++
    (if rest_guidance ≠ "" ∧ block_type = "strength" then [rest_guidance] else [])
  { id := exercise_id,
    name := ex.name.getD "Unknown",
    type := ex_type,
    target_sets := target_sets,
    target_reps := target_reps,
    guidance_note :=
      if note_parts = [] then none else some (String.intercalate ". " note_parts) }

/-- The enumerate loop over the Sub-Exercises of a non-warmup block,
carrying the running 0-based index. -/
def transformSubExercises (block_type rest_guidance : String) (block_index : Nat) :
    Nat → List SubExercise → List Exercise
  | _, [] => []
  | i, ex :: rest =>
    transformSubExercise block_type rest_guidance block_index i ex ::
      transformSubExercises block_type rest_guidance block_index (i + 1) rest

/-- Embedding of _transform_block_to_exercises: the Exercise Normalizer
mapping one block at its 0-based plan position to its exercise list.  The
source checks the branches in the order warmup-with-exercises, exercises,
instructions; a block whose exercises key is present dispatches on warmup
versus per-item, a block without it on the presence of instructions. -/
def _transform_block_to_exercises (block : Block) (block_index : Nat) : List Exercise :=
  let block_type := block.block_type
  let title := block.title
  let rest_guidance := block.rest_guidance
  let duration := block.duration_min.getD 0
  match block.exercises with
  | some exs =>
    if block_type = "warmup" then
      [{ id := "warmup_" ++ natRepr block_index,
         name := if title ≠ "" then title else "Warmup",
         type := "checklist",
         items := some (exs.map renderWarmupItem) }]
    else
      transformSubExercises block_type rest_guidance block_index 0 exs
  | none =>
    match block.instructions with
    | some instrs =>
      let instructions_text := String.intercalate " " instrs
      let is_interval :=
        strContainsSub instructions_text "VO2" || strContainsSub instructions_text "HARD"
      [{ id := mkId block_type block_index 1,
         name :=
           if is_interval then "VO2 Max Intervals"
           else if title ≠ "" then title else "Zone 2 Cardio",
         type := if is_interval then "interval" else "duration",
         target_duration_min := some duration,
         guidance_note := some (String.intercalate " | " instrs) }]
    | none => []

/-- The raw block-format plan object handed to the Plan Transformer; every
field is read through dict.get with a default in the source, kept as Option
here with the default applied at the read site. -/
structure PlanData where
  phase : Option String := none
  theme : Option String := none
  location : Option String := none
  total_duration_min : Option Int := none
  blocks : Option (List Block) := none
deriving DecidableEq

/-- The per-block summary record the Plan Transformer accumulates. -/
structure TransformedBlock where
  block_index : Nat
  block_type : String
  title : String
  duration_min : Option Int
  rest_guidance : String
  exercises : List Exercise
deriving DecidableEq

/-- The canonical output plan. -/
structure Plan where
  day_name : String
  location : String
  phase : String
  total_duration_min : Int
  blocks : List TransformedBlock
  exercises : List Exercise
deriving DecidableEq

/-- The enumerate loop of _transform_block_plan, returning the accumulated
per-block records and the flat exercise accumulator from the given index on. -/
def _transform_block_plan_loop : Nat → List Block → List TransformedBlock × List Exercise
  | _, [] => ([], [])
  | i, block :: rest =>
    let block_exercises := _transform_block_to_exercises block i
    let tail := _transform_block_plan_loop (i + 1) rest
    ({ block_index := i,
       block_type := block.block_type,
       title := block.title,
       duration_min := block.duration_min,
       rest_guidance := block.rest_guidance,
       exercises := block_exercises } :: tail.1,
     block_exercises ++ tail.2)

/-- Embedding of _transform_block_plan: the Plan Transformer over the whole
block-format input. -/
def _transform_block_plan (plan_data : PlanData) : Plan :=
  let pair := _transform_block_plan_loop 0 (plan_data.blocks.getD [])
  { day_name := plan_data.theme.getD "Workout",
    location := plan_data.location.getD "Home",
    phase := plan_data.phase.getD "Foundation",
    total_duration_min := plan_data.total_duration_min.getD 60,
    blocks := pair.1,
    exercises := pair.2 }

/-- The two shapes an identifier issued for block index j can take. -/
def IdShape (j : Nat) (s : String) : Prop :=
  s = "warmup_" ++ natRepr j ∨ ∃ bt k, s = mkId bt j k

/-! Concrete inputs used by the per-claim theorems, witnesses and
counterexamples below; they match the shapes exercised by the repository's
unit tests. -/

/-- A circuit block holding one bodyweight exercise without an equipment tag. -/
def pushupsBlock : Block :=
  { block_type := "circuit", title := "Test Block",
    exercises := some [{ name := some "Push-ups", reps := some (.int 10) }] }

/-- A circuit block holding one duration-style exercise. -/
def wallSitBlock : Block :=
  { block_type := "circuit", title := "Test Block",
    exercises := some [{ name := some "Wall Sit", reps := some (.str "30 sec") }] }

/-- A circuit block carrying rounds but no per-exercise sets. -/
def roundsBlock : Block :=
  { block_type := "circuit", title := "Test Block", rounds := some (.int 4),
    exercises := some [{ name := some "KB Swings", reps := some (.int 10) }] }

/-- A strength block whose sub-exercise carries tempo, load guide and notes. -/
def strengthBlock : Block :=
  { block_type := "strength", title := "Strength", rest_guidance := "Rest 2-3 min",
    exercises := some [{ name := some "Squat", sets := some (.int 3),
                         reps := some (.int 5), tempo := "3-1-1",
                         load_guide := "Heavy", notes := "Brace" }] }

/-- A warmup block whose sub-exercise has integer reps equal to zero. -/
def catCowZeroBlock : Block :=
  { block_type := "warmup", title := "Warmup",
    exercises := some [{ name := some "Cat-Cow", reps := some (.int 0) }] }

/-- A warmup block exercising the three reps renderings. -/
def warmupWitnessBlock : Block :=
  { block_type := "warmup", title := "The Stability Start",
    exercises := some [{ name := some "Cat-Cow", reps := some (.int 10) },
                       { name := some "Bird-Dog", reps := some (.str "5/side") },
                       { name := some "Hang" }] }

/-- A cardio block whose instructions mention the VO2 trigger keyword. -/
def vo2Block : Block :=
  { block_type := "cardio", title := "VO2 Max Session", duration_min := some 20,
    instructions := some ["3 min warmup", "4x4 min VO2 intervals", "3 min cooldown"] }

/-- An unrecognized block type with a sub-exercise list. -/
def mobilityBlock : Block :=
  { block_type := "mobility", title := "Mobility",
    exercises := some [{ name := some "Hip Circles", reps := some (.int 10) }] }

/-- A block whose instructions key is present but holds the empty list. -/
def emptyInstrBlock : Block :=
  { block_type := "cardio", title := "Cardio", instructions := some [] }

/-- A block with neither an exercises key nor an instructions key. -/
def noneBlock : Block := { block_type := "rest_day" }

/-- A block carrying both an exercises key and an instructions key. -/
def bothKeysBlock : Block :=
  { block_type := "circuit", title := "Both",
    exercises := some [{ name := some "KB Swings", reps := some (.int 10) }],
    instructions := some ["should be ignored"] }

/-! Lemmas about the decimal rendering and the identifier scheme. -/

theorem digitChar_toNat (d : Nat) (h : d < 10) : (digitChar d).toNat = 48 + d := by
  interval_cases d <;> decide

theorem digitChar_ne_underscore (d : Nat) (h : d < 10) : digitChar d ≠ '_' := by
  interval_cases d <;> decide

theorem natDigitsCore_eq (fuel : Nat) : ∀ (n : Nat) (acc : List Char), n < fuel →
    natDigitsCore fuel n acc = natDigitsSpec n ++ acc := by
  induction fuel with
  | zero => intro n acc h; omega
  | succ fuel ih =>
    intro n acc h
    by_cases h10 : n < 10
    · rw [natDigitsSpec]
      simp [natDigitsCore, h10]
    · rw [natDigitsSpec]
      have hdiv : n / 10 < n := Nat.div_lt_self (by omega) (by omega)
      simp only [natDigitsCore, if_neg h10, dif_neg h10]
      rw [ih (n / 10) _ (by omega)]
      simp [List.append_assoc]

theorem natDigits_eq_spec (n : Nat) : natDigits n = natDigitsSpec n := by
  have h := natDigitsCore_eq (n + 1) n [] (by omega)
  simpa [natDigits] using h

theorem digitsVal_append_singleton (l : List Char) (c : Char) :
    digitsVal (l ++ [c]) = digitsVal l * 10 + (c.toNat - 48) := by
  simp [digitsVal, List.foldl_append]

theorem digitsVal_natDigitsSpec (n : Nat) : digitsVal (natDigitsSpec n) = n := by
  induction n using Nat.strong_induction_on with
  | _ n ih =>
    by_cases h : n < 10
    · rw [natDigitsSpec]
      simp only [dif_pos h]
      simp [digitsVal, digitChar_toNat n h]
    · rw [natDigitsSpec]
      simp only [dif_neg h]
      rw [digitsVal_append_singleton,
        ih (n / 10) (Nat.div_lt_self (by omega) (by omega)),
        digitChar_toNat (n % 10) (Nat.mod_lt _ (by omega))]
      omega

theorem natDigitsSpec_inj {a b : Nat} (h : natDigitsSpec a = natDigitsSpec b) : a = b := by
  have h2 := congrArg digitsVal h
  rwa [digitsVal_natDigitsSpec, digitsVal_natDigitsSpec] at h2

theorem underscore_not_mem_natDigitsSpec (n : Nat) : '_' ∉ natDigitsSpec n := by
  induction n using Nat.strong_induction_on with
  | _ n ih =>
    by_cases h : n < 10
    · rw [natDigitsSpec]
      simp only [dif_pos h, List.mem_singleton]
      exact fun he => digitChar_ne_underscore n h he.symm
    · rw [natDigitsSpec]
      simp only [dif_neg h]
      intro hmem
      rcases List.mem_append.mp hmem with hmem | hmem
      · exact ih (n / 10) (Nat.div_lt_self (by omega) (by omega)) hmem
      · exact digitChar_ne_underscore (n % 10) (Nat.mod_lt _ (by omega))
          (List.mem_singleton.mp hmem).symm

theorem natRepr_data (n : Nat) : (natRepr n).data = natDigitsSpec n := by
  simp [natRepr, natDigits_eq_spec]

theorem string_ext {a b : String} (h : a.data = b.data) : a = b := by
  cases a; cases b; exact congrArg String.mk h

theorem sep_cancel (c : Char) : ∀ (xs xs' ys ys' : List Char),
    xs ++ c :: ys = xs' ++ c :: ys' → c ∉ xs → c ∉ xs' → xs = xs' ∧ ys = ys' := by
  intro xs
  induction xs with
  | nil =>
    intro xs' ys ys' h _ hx'
    cases xs' with
    | nil => simpa using h
    | cons b t =>
      simp only [List.nil_append, List.cons_append, List.cons.injEq] at h
      exact absurd (by rw [h.1]; exact List.mem_cons_self b t) hx'
  | cons a t ih =>
    intro xs' ys ys' h hx hx'
    cases xs' with
    | nil =>
      simp only [List.cons_append, List.nil_append, List.cons.injEq] at h
      exact absurd (by rw [← h.1]; exact List.mem_cons_self a t) hx
    | cons b t' =>
      simp only [List.cons_append, List.cons.injEq] at h
      obtain ⟨hab, hrest⟩ := h
      have hx2 : c ∉ t := fun hm => hx (List.mem_cons_of_mem _ hm)
      have hx'2 : c ∉ t' := fun hm => hx' (List.mem_cons_of_mem _ hm)
      obtain ⟨h1, h2⟩ := ih t' ys ys' hrest hx2 hx'2
      exact ⟨by rw [hab, h1], h2⟩

theorem reverse_shape (x y z : List Char) :
    (x ++ '_' :: (y ++ '_' :: z)).reverse = z.reverse ++ '_' :: (y.reverse ++ '_' :: x.reverse) := by
  simp [List.reverse_append, List.append_assoc]

theorem mkId_data (bt : String) (i k : Nat) :
    (mkId bt i k).data = bt.data ++ '_' :: (natDigitsSpec i ++ '_' :: natDigitsSpec k) := by
  show bt.data ++ "_".data ++ (natRepr i).data ++ "_".data ++ (natRepr k).data = _
  rw [natRepr_data, natRepr_data]
  show bt.data ++ ['_'] ++ natDigitsSpec i ++ ['_'] ++ natDigitsSpec k = _
  simp [List.append_assoc]

theorem mkId_inj {bt bt' : String} {i i' k k' : Nat} (h : mkId bt i k = mkId bt' i' k') :
    bt = bt' ∧ i = i' ∧ k = k' := by
  have hd : bt.data ++ '_' :: (natDigitsSpec i ++ '_' :: natDigitsSpec k)
      = bt'.data ++ '_' :: (natDigitsSpec i' ++ '_' :: natDigitsSpec k') := by
    rw [← mkId_data, ← mkId_data, h]
  have hrev := congrArg List.reverse hd
  rw [reverse_shape, reverse_shape] at hrev
  have hk : '_' ∉ (natDigitsSpec k).reverse :=
    fun hm => underscore_not_mem_natDigitsSpec k (List.mem_reverse.mp hm)
  have hk' : '_' ∉ (natDigitsSpec k').reverse :=
    fun hm => underscore_not_mem_natDigitsSpec k' (List.mem_reverse.mp hm)
  obtain ⟨e1, e2⟩ := sep_cancel '_' _ _ _ _ hrev hk hk'
  have hi : '_' ∉ (natDigitsSpec i).reverse :=
    fun hm => underscore_not_mem_natDigitsSpec i (List.mem_reverse.mp hm)
  have hi' : '_' ∉ (natDigitsSpec i').reverse :=
    fun hm => underscore_not_mem_natDigitsSpec i' (List.mem_reverse.mp hm)
  obtain ⟨e3, e4⟩ := sep_cancel '_' _ _ _ _ e2 hi hi'
  exact ⟨string_ext (List.reverse_injective e4),
    natDigitsSpec_inj (List.reverse_injective e3),
    natDigitsSpec_inj (List.reverse_injective e1)⟩

theorem warmupId_data (i : Nat) : ("warmup_" ++ natRepr i).data = "warmup_".data ++ natDigitsSpec i := by
  show "warmup_".data ++ (natRepr i).data = _
  rw [natRepr_data]

theorem count_underscore_natDigitsSpec (n : Nat) : (natDigitsSpec n).count '_' = 0 :=
  List.count_eq_zero.mpr (underscore_not_mem_natDigitsSpec n)

theorem warmupId_inj {i j : Nat} (h : "warmup_" ++ natRepr i = "warmup_" ++ natRepr j) :
    i = j := by
  have hd := congrArg String.data h
  rw [warmupId_data, warmupId_data] at hd
  exact natDigitsSpec_inj (List.append_cancel_left hd)

theorem warmupId_ne_mkId (j : Nat) (bt : String) (i k : Nat) :
    "warmup_" ++ natRepr j ≠ mkId bt i k := by
  intro h
  have hc := congrArg (fun s => s.data.count '_') h
  simp only at hc
  rw [warmupId_data, mkId_data] at hc
  have hw : "warmup_".data.count '_' = 1 := by decide
  simp [List.count_append, List.count_cons, count_underscore_natDigitsSpec, hw] at hc

/-! Structural lemmas about the Normalizer and the Plan Transformer. -/

theorem length_transformSubExercises (bt rg : String) (bi : Nat) :
    ∀ (i0 : Nat) (exs : List SubExercise),
      (transformSubExercises bt rg bi i0 exs).length = exs.length := by
  intro i0 exs
  induction exs generalizing i0 with
  | nil => rfl
  | cons ex rest ih => simp [transformSubExercises, ih (i0 + 1)]

theorem transformSubExercises_getElem? (bt rg : String) (bi : Nat) :
    ∀ (i0 k : Nat) (exs : List SubExercise),
      (transformSubExercises bt rg bi i0 exs)[k]?
        = exs[k]?.map (transformSubExercise bt rg bi (i0 + k)) := by
  intro i0 k exs
  induction exs generalizing i0 k with
  | nil => simp [transformSubExercises]
  | cons ex rest ih =>
    cases k with
    | zero => simp [transformSubExercises]
    | succ k =>
      simp only [transformSubExercises, List.getElem?_cons_succ, ih (i0 + 1) k]
      rw [show i0 + 1 + k = i0 + (k + 1) from by omega]

theorem id_mem_transformSubExercises {bt rg : String} {bi : Nat} :
    ∀ {i0 : Nat} {exs : List SubExercise} {e : Exercise},
      e ∈ transformSubExercises bt rg bi i0 exs → ∃ k, i0 < k ∧ e.id = mkId bt bi k := by
  intro i0 exs
  induction exs generalizing i0 with
  | nil => intro e he; simp [transformSubExercises] at he
  | cons ex rest ih =>
    intro e he
    rcases List.mem_cons.mp he with he | he
    · exact ⟨i0 + 1, by omega, by rw [he]; rfl⟩
    · obtain ⟨k, hk, hid⟩ := ih he
      exact ⟨k, by omega, hid⟩

theorem nodup_ids_transformSubExercises (bt rg : String) (bi : Nat) :
    ∀ (i0 : Nat) (exs : List SubExercise),
      ((transformSubExercises bt rg bi i0 exs).map Exercise.id).Nodup := by
  intro i0 exs
  induction exs generalizing i0 with
  | nil => simp [transformSubExercises]
  | cons ex rest ih =>
    rw [transformSubExercises, List.map_cons, List.nodup_cons]
    refine ⟨fun hmem => ?_, ih (i0 + 1)⟩
    obtain ⟨e, he, hid⟩ := List.mem_map.mp hmem
    obtain ⟨k, hk, hid2⟩ := id_mem_transformSubExercises he
    have : (transformSubExercise bt rg bi i0 ex).id = mkId bt bi (i0 + 1) := rfl
    rw [hid2, this] at hid
    obtain ⟨-, -, hkk⟩ := mkId_inj hid
    omega

theorem idShape_disjoint {i j : Nat} {s : String} (hij : i ≠ j)
    (hi : IdShape i s) (hj : IdShape j s) : False := by
  rcases hi with hi | ⟨bt, k, hi⟩ <;> rcases hj with hj | ⟨bt', k', hj⟩
  · exact hij (warmupId_inj (hi.symm.trans hj))
  · exact warmupId_ne_mkId i bt' j k' (hi.symm.trans hj)
  · exact warmupId_ne_mkId j bt i k (hj.symm.trans hi)
  · exact hij (mkId_inj (hi.symm.trans hj)).2.1

theorem idShape_transform {b : Block} {i : Nat} {e : Exercise}
    (he : e ∈ _transform_block_to_exercises b i) : IdShape i e.id := by
  rcases b with ⟨bt, title, rg, dm, rounds, oexs, oinstr⟩
  cases oexs with
  | some exs =>
    by_cases hw : bt = "warmup"
    · simp [_transform_block_to_exercises, hw] at he
      left
      rw [he]
    · simp only [_transform_block_to_exercises, if_neg hw] at he
      obtain ⟨k, _, hid⟩ := id_mem_transformSubExercises he
      exact Or.inr ⟨bt, k, hid⟩
  | none =>
    cases oinstr with
    | some instrs =>
      simp only [_transform_block_to_exercises, List.mem_singleton] at he
      right
      exact ⟨bt, 1, by rw [he]⟩
    | none => simp [_transform_block_to_exercises] at he

theorem nodup_ids_transform (b : Block) (i : Nat) :
    ((_transform_block_to_exercises b i).map Exercise.id).Nodup := by
  rcases b with ⟨bt, title, rg, dm, rounds, oexs, oinstr⟩
  cases oexs with
  | some exs =>
    by_cases hw : bt = "warmup"
    · simp [_transform_block_to_exercises, hw]
    · simp only [_transform_block_to_exercises, if_neg hw]
      exact nodup_ids_transformSubExercises bt rg i 0 exs
  | none =>
    cases oinstr with
    | some instrs => simp [_transform_block_to_exercises]
    | none => simp [_transform_block_to_exercises]

theorem idShape_loop {e : Exercise} :
    ∀ {i0 : Nat} {bs : List Block}, e ∈ (_transform_block_plan_loop i0 bs).2 →
      ∃ j, i0 ≤ j ∧ IdShape j e.id := by
  intro i0 bs
  induction bs generalizing i0 with
  | nil => intro he; simp [_transform_block_plan_loop] at he
  | cons b rest ih =>
    intro he
    simp only [_transform_block_plan_loop, List.mem_append] at he
    rcases he with he | he
    · exact ⟨i0, le_refl i0, idShape_transform he⟩
    · obtain ⟨j, hj, hs⟩ := ih he
      exact ⟨j, by omega, hs⟩

theorem nodup_ids_loop : ∀ (i0 : Nat) (bs : List Block),
    ((_transform_block_plan_loop i0 bs).2.map Exercise.id).Nodup := by
  intro i0 bs
  induction bs generalizing i0 with
  | nil => simp [_transform_block_plan_loop]
  | cons b rest ih =>
    simp only [_transform_block_plan_loop, List.map_append]
    rw [List.nodup_append]
    refine ⟨nodup_ids_transform b i0, ih (i0 + 1), ?_⟩
    intro s hs1 hs2
    obtain ⟨e1, he1, hid1⟩ := List.mem_map.mp hs1
    obtain ⟨e2, he2, hid2⟩ := List.mem_map.mp hs2
    have hsh1 : IdShape i0 s := hid1 ▸ idShape_transform he1
    obtain ⟨j, hj, hsh2⟩ := idShape_loop he2
    exact idShape_disjoint (show i0 ≠ j from by omega) hsh1 (hid2 ▸ hsh2)

theorem mem_transformSubExercises {bt rg : String} {bi : Nat} :
    ∀ {i0 : Nat} {exs : List SubExercise} {e : Exercise},
      e ∈ transformSubExercises bt rg bi i0 exs →
      ∃ k ex, e = transformSubExercise bt rg bi k ex := by
  intro i0 exs
  induction exs generalizing i0 with
  | nil => intro e he; simp [transformSubExercises] at he
  | cons ex rest ih =>
    intro e he
    rcases List.mem_cons.mp he with he | he
    · exact ⟨i0, ex, he⟩
    · exact ih he

theorem hide_show_none {b : Block} {i : Nat} {e : Exercise}
    (he : e ∈ _transform_block_to_exercises b i) :
    e.hide_weight = none ∧ e.show_time = none := by
  rcases b with ⟨bt, title, rg, dm, rounds, oexs, oinstr⟩
  cases oexs with
  | some exs =>
    by_cases hw : bt = "warmup"
    · simp [_transform_block_to_exercises, hw] at he
      rw [he]
      exact ⟨rfl, rfl⟩
    · simp only [_transform_block_to_exercises, if_neg hw] at he
      obtain ⟨k, ex, rfl⟩ := mem_transformSubExercises he
      exact ⟨rfl, rfl⟩
  | none =>
    cases oinstr with
    | some instrs =>
      simp [_transform_block_to_exercises] at he
      rw [he]
      exact ⟨rfl, rfl⟩
    | none => simp [_transform_block_to_exercises] at he

/-! The per-claim theorems. -/

/-- C1: claimed, hide_weight is emitted as true for bodyweight- or
band-based exercises (from equipment, else a name vocabulary including
push-up variants).  The transformation source never writes a hide_weight
key on any exercise: on a no-equipment push-up sub-exercise the emitted
record carries no hide_weight, where the claim demands true, and every
exercise of every block carries none. -/
theorem C1_hide_weight_never_set :
    ((_transform_block_to_exercises pushupsBlock 0).map Exercise.hide_weight = [none]) ∧
    (∀ (b : Block) (i : Nat),
      ((_transform_block_to_exercises b i).map Exercise.hide_weight).all (· == none) = true) := by
  refine ⟨by decide, ?_⟩
  intro b i
  rw [List.all_eq_true]
  intro x hx
  obtain ⟨e, he, rfl⟩ := List.mem_map.mp hx
  rw [(hide_show_none he).1]
  rfl

/-- C2: claimed, show_time is emitted as true exactly when reps is a
duration-style string.  The transformation source never writes a show_time
key: on a sub-exercise with reps equal to the string 30 sec the emitted
record keeps target_reps but carries no show_time, where the claim demands
true, and every exercise of every block carries none. -/
theorem C2_show_time_never_set :
    ((_transform_block_to_exercises wallSitBlock 0).map Exercise.target_reps = [some "30 sec"]) ∧
    ((_transform_block_to_exercises wallSitBlock 0).map Exercise.show_time = [none]) ∧
    (∀ (b : Block) (i : Nat),
      ((_transform_block_to_exercises b i).map Exercise.show_time).all (· == none) = true) := by
  refine ⟨by decide, by decide, ?_⟩
  intro b i
  rw [List.all_eq_true]
  intro x hx
  obtain ⟨e, he, rfl⟩ := List.mem_map.mp hx
  rw [(hide_show_none he).2]
  rfl

/-- C3: claimed, target_sets falls back to the block's rounds when sets is
absent.  The transformation source never reads the rounds key: on a block
with rounds four and a sub-exercise without sets the emitted record carries
no target_sets, where the claim demands four, and the whole output is
invariant under erasing rounds. -/
theorem C3_rounds_never_read :
    ((_transform_block_to_exercises roundsBlock 0).map Exercise.target_sets = [none]) ∧
    (∀ (b : Block) (i : Nat),
      _transform_block_to_exercises b i
        = _transform_block_to_exercises { b with rounds := none } i) := by
  refine ⟨by decide, ?_⟩
  intro b i
  rcases b with ⟨bt, title, rg, dm, rounds, oexs, oinstr⟩
  rfl

/-- C8 counterexample: the claim says a block with no Sub-Exercise sequence
and no non-empty instructions sequence produces the empty exercise list,
but a block whose instructions key holds the empty list still takes the
instruction branch and emits one duration exercise. -/
theorem C8_counterexample :
    emptyInstrBlock.exercises = none ∧ emptyInstrBlock.instructions = some [] ∧
    _transform_block_to_exercises emptyInstrBlock 0 ≠ [] := by
  refine ⟨rfl, rfl, ?_⟩
  decide

/-- C8 amended: the Normalizer is a total function, and a block carrying
neither an exercises key nor an instructions key produces the empty
exercise list; a present-but-empty instructions list instead emits one
duration exercise. -/
theorem C8_amended_no_keys_empty (b : Block) (i : Nat)
    (h1 : b.exercises = none) (h2 : b.instructions = none) :
    _transform_block_to_exercises b i = [] := by
  rcases b with ⟨bt, title, rg, dm, rounds, oexs, oinstr⟩
  cases oexs with
  | some exs => simp at h1
  | none =>
    cases oinstr with
    | some instrs => simp at h2
    | none => rfl

/-- C8 witness: the amended theorem applied to a block with neither key. -/
theorem C8_amended_no_keys_empty_witness :
    _transform_block_to_exercises noneBlock 0 = [] :=
  C8_amended_no_keys_empty noneBlock 0 rfl rfl

/-- C9: across the whole flattened exercises list of a transformed plan the
exercise identifiers are pairwise distinct, by the numbering scheme alone. -/
theorem C9_plan_exercise_ids_nodup (pd : PlanData) :
    ((_transform_block_plan pd).exercises.map Exercise.id).Nodup :=
  nodup_ids_loop 0 (pd.blocks.getD [])

/-- C10: a block carrying both an exercises key and an instructions key is
handled exclusively through the Sub-Exercise path; its output is invariant
under erasing the instructions, which therefore contribute nothing. -/
theorem C10_exercises_key_wins (b : Block) (i : Nat)
    (h : b.exercises.isSome = true) :
    _transform_block_to_exercises b i
      = _transform_block_to_exercises { b with instructions := none } i := by
  rcases b with ⟨bt, title, rg, dm, rounds, oexs, oinstr⟩
  cases oexs with
  | none => simp at h
  | some exs => rfl

/-- C10 witness: the theorem applied to a block carrying both keys. -/
theorem C10_exercises_key_wins_witness :
    _transform_block_to_exercises bothKeysBlock 0
      = _transform_block_to_exercises { bothKeysBlock with instructions := none } 0 :=
  C10_exercises_key_wins bothKeysBlock 0 rfl

/-- C4: on a non-warmup block with Sub-Exercises, each emitted exercise's
guidance_note is the dot-space-joined concatenation, in order, of the tempo
phrase, the load guide, the notes, and the block's rest guidance, the last
exactly when the block type is the word strength; the field is none when no
part was collected. -/
theorem C4_guidance_note (b : Block) (i : Nat) (exs : List SubExercise)
    (k : Nat) (ex : SubExercise)
    (hw : b.block_type ≠ "warmup") (hex : b.exercises = some exs)
    (hk : exs[k]? = some ex) :
    ∃ e, (_transform_block_to_exercises b i)[k]? = some e ∧
      e.guidance_note =
        (let parts :=
          (if ex.tempo ≠ "" then ["Tempo " ++ ex.tempo] else []) ++
          (if ex.load_guide ≠ "" then [ex.load_guide] else []) ++
          (if ex.notes ≠ "" then [ex.notes] else []) ++
          (if b.rest_guidance ≠ "" ∧ b.block_type = "strength"
           then [b.rest_guidance] else [])
        if parts = [] then none else some (String.intercalate ". " parts)) := by
  rcases b with ⟨bt, title, rg, dm, rounds, oexs, oinstr⟩
  have hex' : oexs = some exs := hex
  subst hex'
  have hw' : ¬ bt = "warmup" := hw
  refine ⟨transformSubExercise bt rg i (0 + k) ex, ?_, rfl⟩
  simp only [_transform_block_to_exercises, if_neg hw']
  rw [transformSubExercises_getElem? bt rg i 0 k exs, hk]
  rfl

/-- C4 witness: the theorem applied to a strength block whose sub-exercise
carries tempo, load guide and notes, and whose block carries rest guidance. -/
theorem C4_guidance_note_witness :
    ∃ e, (_transform_block_to_exercises strengthBlock 1)[0]? = some e ∧
      e.guidance_note = some "Tempo 3-1-1. Heavy. Brace. Rest 2-3 min" := by
  obtain ⟨e, h1, h2⟩ := C4_guidance_note strengthBlock 1 _ 0 _ (by decide) rfl rfl
  refine ⟨e, h1, ?_⟩
  rw [h2]
  decide

/-- C5 counterexample: the claim renders a warmup item for integer reps as
the name with an x-prefixed count, but the source first tests Python
truthiness, so integer reps equal to zero render the bare name. -/
theorem C5_counterexample :
    ((_transform_block_to_exercises catCowZeroBlock 0).map Exercise.items
      = [some ["Cat-Cow"]]) ∧
    ((_transform_block_to_exercises catCowZeroBlock 0).map Exercise.items
      ≠ [some ["Cat-Cow x0"]]) := by
  exact ⟨by decide, by decide⟩

/-- C5 amended: a warmup block with a Sub-Exercise list yields exactly one
checklist exercise whose id is warmup underscore the block index, whose
name is the title or the word Warmup when the title is empty, and whose
items render each Sub-Exercise as name x reps for a truthy (nonzero)
integer reps, name space reps for a non-empty string reps, and the bare
name when reps is absent, zero or empty. -/
theorem C5_warmup_checklist (b : Block) (i : Nat) (exs : List SubExercise)
    (hw : b.block_type = "warmup") (hex : b.exercises = some exs) :
    _transform_block_to_exercises b i =
      [{ id := "warmup_" ++ natRepr i,
         name := if b.title ≠ "" then b.title else "Warmup",
         type := "checklist",
         items := some (exs.map (fun ex =>
           let name := ex.name.getD "Unknown"
           match ex.reps with
           | some (.int n) => if n ≠ 0 then name ++ " x" ++ intRepr n else name
           | some (.str s) => if s ≠ "" then name ++ " " ++ s else name
           | none => name)) }] := by
  rcases b with ⟨bt, title, rg, dm, rounds, oexs, oinstr⟩
  have hw' : bt = "warmup" := hw
  subst hw'
  have hex' : oexs = some exs := hex
  subst hex'
  rfl

/-- C5 witness: the amended theorem applied to a warmup block exercising
the integer, string and absent reps renderings. -/
theorem C5_warmup_checklist_witness :
    _transform_block_to_exercises warmupWitnessBlock 0 =
      [{ id := "warmup_0", name := "The Stability Start", type := "checklist",
         items := some ["Cat-Cow x10", "Bird-Dog 5/side", "Hang"] }] := by
  rw [C5_warmup_checklist warmupWitnessBlock 0 _ rfl rfl]
  decide

/-- C6: a block with no exercises key and a non-empty instructions list
yields exactly one exercise whose id joins the block type, block index and
the number one; when the space-joined instructions contain the
case-sensitive markers VO2 or HARD its type is interval with the fixed name
VO2 Max Intervals, otherwise its type is duration named by the title or the
fallback Zone 2 Cardio; the duration target copies the block duration
defaulting to zero and the guidance joins the instructions with bars. -/
theorem C6_instruction_block (b : Block) (i : Nat) (instrs : List String)
    (hex : b.exercises = none) (hin : b.instructions = some instrs)
    (_hne : instrs ≠ []) :
    _transform_block_to_exercises b i =
      [{ id := mkId b.block_type i 1,
         name :=
           if strContainsSub (String.intercalate " " instrs) "VO2"
              || strContainsSub (String.intercalate " " instrs) "HARD"
           then "VO2 Max Intervals"
           else if b.title ≠ "" then b.title else "Zone 2 Cardio",
         type :=
           if strContainsSub (String.intercalate " " instrs) "VO2"
              || strContainsSub (String.intercalate " " instrs) "HARD"
           then "interval" else "duration",
         target_duration_min := some (b.duration_min.getD 0),
         guidance_note := some (String.intercalate " | " instrs) }] := by
  rcases b with ⟨bt, title, rg, dm, rounds, oexs, oinstr⟩
  have hex' : oexs = none := hex
  subst hex'
  have hin' : oinstr = some instrs := hin
  subst hin'
  rfl

/-- C6 witness: the theorem applied to a cardio block whose instructions
mention VO2; the fixed interval name ignores the non-empty title. -/
theorem C6_instruction_block_witness :
    _transform_block_to_exercises vo2Block 1 =
      [{ id := "cardio_1_1", name := "VO2 Max Intervals", type := "interval",
         target_duration_min := some 20,
         guidance_note :=
           some "3 min warmup | 4x4 min VO2 intervals | 3 min cooldown" }] := by
  rw [C6_instruction_block vo2Block 1 _ rfl rfl (by decide)]
  decide

/-- C7: a non-warmup block with n Sub-Exercises yields exactly n exercises
in input order, the k-th carrying the id built from the block type, the
block index and the 1-based position, with type circuit for circuit or
power blocks and strength for every other block type including
unrecognized ones. -/
theorem C7_per_item_expansion (b : Block) (i : Nat) (exs : List SubExercise)
    (hw : b.block_type ≠ "warmup") (hex : b.exercises = some exs) :
    ((_transform_block_to_exercises b i).length = exs.length) ∧
    (∀ k : Nat, k < exs.length →
      ∃ e ex, (_transform_block_to_exercises b i)[k]? = some e ∧
        exs[k]? = some ex ∧
        e.id = mkId b.block_type i (k + 1) ∧
        e.type = (if b.block_type = "circuit" ∨ b.block_type = "power"
                  then "circuit" else "strength") ∧
        e.name = ex.name.getD "Unknown") := by
  rcases b with ⟨bt, title, rg, dm, rounds, oexs, oinstr⟩
  have hex' : oexs = some exs := hex
  subst hex'
  have hw' : ¬ bt = "warmup" := hw
  constructor
  · simp only [_transform_block_to_exercises, if_neg hw']
    exact length_transformSubExercises bt rg i 0 exs
  · intro k hk
    refine ⟨transformSubExercise bt rg i (0 + k) exs[k], exs[k], ?_, List.getElem?_eq_getElem hk, ?_, ?_, rfl⟩
    · simp only [_transform_block_to_exercises, if_neg hw']
      rw [transformSubExercises_getElem? bt rg i 0 k exs, List.getElem?_eq_getElem hk]
      rfl
    · show mkId bt i (0 + k + 1) = mkId bt i (k + 1)
      rw [Nat.zero_add]
    · by_cases hc : bt = "circuit" ∨ bt = "power"
      · simp [transformSubExercise, hc]
      · simp [transformSubExercise, hc, ite_self]

/-- C7 witness: the theorem applied to an unrecognized block type, whose
exercise falls through to the strength default. -/
theorem C7_per_item_expansion_witness :
    (_transform_block_to_exercises mobilityBlock 2).length = 1 ∧
    (∃ e ex, (_transform_block_to_exercises mobilityBlock 2)[0]? = some e ∧
      (mobilityBlock.exercises.getD [])[0]? = some ex ∧
      e.id = mkId "mobility" 2 1 ∧
      e.type = "strength" ∧
      e.name = ex.name.getD "Unknown") := by
  have h := C7_per_item_expansion mobilityBlock 2
    [{ name := some "Hip Circles", reps := some (.int 10) }] (by decide) rfl
  refine ⟨h.1, ?_⟩
  obtain ⟨e, ex, h1, h2, h3, h4, h5⟩ := h.2 0 (by decide)
  refine ⟨e, ex, h1, h2, h3, ?_, h5⟩
  rw [h4]
  decide

example : natRepr 0 = "0" := by decide

example : natRepr 37 = "37" := by decide

example : intRepr (-5) = "-5" := by decide

example : strContainsSub "4x4 min VO2 intervals" "VO2" = true := by decide

example : strContainsSub "easy spin" "VO2" = false := by decide

end HealthCoach
